import Mathlib

/-!
Verification of the request sanitization / CORS-enforcement pipeline of the
`biap-client-node-js` bootstrap file (the Express application module).

The development shallowly embeds:
* the JSON-like request-body values handled by `sanitize` (part_000 lines 116-135),
* the string-processing chain `validator.trim` / `customEscape` / `purify.sanitize`
  (lines 106-120) — the two third-party library steps (`validator`, `DOMPurify`)
  are not part of this repository and are modelled from the specification,
* the origin decision of `corsOptions.origin` (lines 44-54),
* the startup whitelist parsing (lines 36-40),
* the inline middleware chain in registration order (lines 76-152): the CORS
  header / preflight middleware, the origin-blocking middleware, the
  `/clientApis` mount with the version validator and router, the body-sanitize
  middleware, `express-mongo-sanitize`, and the 404 fallback.  Library
  middlewares (`cookie-parser`, `body-parser`, `morgan`, the two `cors(...)`
  instances, `helmet`) only set headers or parse input and are modelled as
  pass-through, following the specification, whose pipeline state machine
  assigns them no stage of their own.
-/

namespace Biap

/-! ## JSON-like values

The body handed to `sanitize` is an arbitrary JSON-like value: string, number,
boolean, null, undefined, array, or plain object (own enumerable string keys).
Arrays and objects are represented by mutually inductive list types so that all
recursion below is structural. -/

mutual

inductive JSValue where
  | str (s : String)
  | num (n : Int)
  | bool (b : Bool)
  | null
  | undef
  | arr (elems : JSList)
  | obj (fields : JSObj)
deriving DecidableEq

inductive JSList where
  | nil
  | cons (head : JSValue) (tail : JSList)
deriving DecidableEq

inductive JSObj where
  | nil
  | cons (key : String) (val : JSValue) (tail : JSObj)
deriving DecidableEq

end

/-! ## String models

`validator.trim` and `DOMPurify`'s `purify.sanitize` are library code outside
this repository; they are modelled from the specification. -/

def isWs (c : Char) : Bool := c.isWhitespace

/-- Modelled from the spec: `validator.trim` (library code not under src/)
removes leading and trailing whitespace from a string. -/
def trimChars (l : List Char) : List Char :=
  ((l.dropWhile isWs).reverse.dropWhile isWs).reverse

/-- Modelled from the spec: `validator.trim` on strings. -/
def vtrim (s : String) : String := String.mk (trimChars s.toList)

/-- A string contains markup when it contains a tag-opening character. -/
def hasMarkup (s : String) : Bool := s.toList.any (fun c => c == '<')

/-- Tag stripping: drop every `<...>` tag (and anything from an unmatched `<`
onwards).  The boolean argument records whether scanning is inside a tag. -/
def stripTagsAux : List Char → Bool → List Char
  | [], _ => []
  | c :: rest, true => if c = '>' then stripTagsAux rest false else stripTagsAux rest true
  | c :: rest, false => if c = '<' then stripTagsAux rest true else c :: stripTagsAux rest false

def stripTags (l : List Char) : List Char := stripTagsAux l false

/-- Modelled from the spec: `DOMPurify`'s `purify.sanitize` (library code not
under src/) strips executable markup — script tags and other `<...>` tag
content — and returns a markup-free string unchanged. -/
def purifyString (s : String) : String :=
  if hasMarkup s then String.mk (stripTags s.toList) else s

def charsPrefixOf : List Char → List Char → Bool
  | [], _ => true
  | _ :: _, [] => false
  | a :: as, b :: bs => a = b && charsPrefixOf as bs

/-- `containsSub needle hay` holds when `needle` occurs contiguously in `hay`. -/
def containsSub (needle : List Char) : List Char → Bool
  | [] => needle.isEmpty
  | c :: rest => charsPrefixOf needle (c :: rest) || containsSub needle rest

/-- A character acceptable inside a URL: no whitespace, no angle brackets. -/
def isURLChar (c : Char) : Bool := !(c.isWhitespace || c == '<' || c == '>')

/-- Modelled from the spec: `validator.isURL` with `require_protocol: true`
(library code not under src/) — a well-formed URL with an explicit protocol
scheme: starts with a letter, contains the `://` scheme separator, and consists
only of URL characters (no whitespace, no markup characters). -/
def isExplicitProtocolURL (s : String) : Bool :=
  (match s.toList with
   | c :: _ => c.isAlpha
   | [] => false)
  && containsSub [':', '/', '/'] s.toList
  && s.toList.all isURLChar

/-! ## customEscape and sanitize (part_000 lines 106-135) -/

/-- The string branch of `customEscape` (lines 107-112): the explicit-protocol
URL test returns the value unchanged in both branches. -/
def customEscapeStr (s : String) : String :=
  if isExplicitProtocolURL s then s else s

/-- `customEscape` (lines 106-114): strings go through the URL check, every
other value is returned as is. -/
def customEscape : JSValue → JSValue
  | .str s => .str (customEscapeStr s)
  | v => v

/-- The string branch of `sanitize` (lines 117-120):
`validator.trim`, then `customEscape`, then `purify.sanitize`. -/
def sanitizeString (s : String) : String :=
  purifyString (customEscapeStr (vtrim s))

mutual

/-- `sanitize` (lines 116-135): strings are trimmed, escaped and purified;
arrays are mapped elementwise; objects have each own-key value sanitized;
numbers, booleans, null and undefined pass through unchanged. -/
def sanitize : JSValue → JSValue
  | .str s => .str (sanitizeString s)
  | .num n => .num n
  | .bool b => .bool b
  | .null => .null
  | .undef => .undef
  | .arr l => .arr (sanitizeList l)
  | .obj kvs => .obj (sanitizeObj kvs)

/-- Elementwise sanitization of an array (line 123: `input.map(sanitize)`). -/
def sanitizeList : JSList → JSList
  | .nil => .nil
  | .cons v t => .cons (sanitize v) (sanitizeList t)

/-- Sanitization of an object's own enumerable fields (lines 125-130). -/
def sanitizeObj : JSObj → JSObj
  | .nil => .nil
  | .cons k v t => .cons k (sanitize v) (sanitizeObj t)

end

/-! ## Structural skeletons, array lengths and key sets -/

inductive Skeleton where
  | strLeaf
  | numLeaf
  | boolLeaf
  | nullLeaf
  | undefLeaf
  | arrNode (elems : List Skeleton)
  | objNode (fields : List (String × Skeleton))

mutual

/-- The structural skeleton of a value: constructor shape and object keys,
with leaf payloads erased. -/
def skeleton : JSValue → Skeleton
  | .str _ => .strLeaf
  | .num _ => .numLeaf
  | .bool _ => .boolLeaf
  | .null => .nullLeaf
  | .undef => .undefLeaf
  | .arr l => .arrNode (skeletonList l)
  | .obj kvs => .objNode (skeletonObj kvs)

def skeletonList : JSList → List Skeleton
  | .nil => []
  | .cons v t => skeleton v :: skeletonList t

def skeletonObj : JSObj → List (String × Skeleton)
  | .nil => []
  | .cons k v t => (k, skeleton v) :: skeletonObj t

end

/-- The length of an embedded array. -/
def jsLength : JSList → Nat
  | .nil => 0
  | .cons _ t => jsLength t + 1

/-- The ordered list of own enumerable keys of an embedded object. -/
def objKeys : JSObj → List String
  | .nil => []
  | .cons k _ t => k :: objKeys t

/-- The characters of the literal string of an opening script tag. -/
def scriptTag : List Char := ['<', 's', 'c', 'r', 'i', 'p', 't', '>']

/-! ## Lemmas about the string models -/

theorem toList_mk (l : List Char) : (String.mk l).toList = l := rfl

theorem mem_dropWhile_of_not_ws {c : Char} {l : List Char} (h : c ∈ l) (hw : isWs c = false) :
    c ∈ l.dropWhile isWs := by
  induction l with
  | nil => cases h
  | cons a t ih =>
    rw [List.dropWhile_cons]
    by_cases ha : isWs a = true
    · rw [if_pos ha]
      rcases List.mem_cons.mp h with hca | hmem
      · subst hca; rw [hw] at ha; cases ha
      · exact ih hmem
    · rw [if_neg ha]
      exact h

theorem mem_trimChars_of_not_ws {c : Char} {l : List Char} (h : c ∈ l) (hw : isWs c = false) :
    c ∈ trimChars l := by
  unfold trimChars
  rw [List.mem_reverse]
  refine mem_dropWhile_of_not_ws ?_ hw
  rw [List.mem_reverse]
  exact mem_dropWhile_of_not_ws h hw

theorem mem_of_mem_trimChars {c : Char} {l : List Char} (h : c ∈ trimChars l) : c ∈ l := by
  unfold trimChars at h
  rw [List.mem_reverse] at h
  have h2 := (List.dropWhile_sublist isWs).subset h
  rw [List.mem_reverse] at h2
  exact (List.dropWhile_sublist isWs).subset h2

theorem not_lt_mem_of_hasMarkup_false {s : String} (h : hasMarkup s = false) :
    '<' ∉ s.toList := by
  intro hm
  have hany : s.toList.any (fun c => c == '<') = true :=
    List.any_eq_true.mpr ⟨'<', hm, by simp⟩
  unfold hasMarkup at h
  rw [hany] at h
  cases h

theorem hasMarkup_vtrim_eq_false {s : String} (h : hasMarkup s = false) :
    hasMarkup (vtrim s) = false := by
  unfold hasMarkup vtrim
  rw [toList_mk]
  cases hany : (trimChars s.toList).any (fun c => c == '<')
  · rfl
  · obtain ⟨c, hcmem, hceq⟩ := List.any_eq_true.mp hany
    have hc : c = '<' := by simpa using hceq
    subst hc
    exact absurd (mem_of_mem_trimChars hcmem) (not_lt_mem_of_hasMarkup_false h)

theorem customEscapeStr_eq (s : String) : customEscapeStr s = s := by
  unfold customEscapeStr
  exact ite_self s

theorem purifyString_eq_of_no_markup {s : String} (h : hasMarkup s = false) :
    purifyString s = s := by
  unfold purifyString
  rw [h]
  rfl

theorem sanitizeString_eq_vtrim_of_no_markup {s : String} (h : hasMarkup (vtrim s) = false) :
    sanitizeString s = vtrim s := by
  unfold sanitizeString
  rw [customEscapeStr_eq, purifyString_eq_of_no_markup h]

theorem sanitize_str_of_no_markup {s : String} (h : hasMarkup s = false) :
    sanitize (JSValue.str s) = JSValue.str (vtrim s) := by
  simp only [sanitize]
  rw [sanitizeString_eq_vtrim_of_no_markup (hasMarkup_vtrim_eq_false h)]

theorem lt_not_mem_stripTagsAux : ∀ (l : List Char) (b : Bool), '<' ∉ stripTagsAux l b
  | [], b => by cases b <;> simp [stripTagsAux]
  | c :: rest, true => by
    simp only [stripTagsAux]
    by_cases hc : c = '>'
    · rw [if_pos hc]; exact lt_not_mem_stripTagsAux rest false
    · rw [if_neg hc]; exact lt_not_mem_stripTagsAux rest true
  | c :: rest, false => by
    simp only [stripTagsAux]
    by_cases hc : c = '<'
    · rw [if_pos hc]; exact lt_not_mem_stripTagsAux rest true
    · rw [if_neg hc]
      intro hmem
      rcases List.mem_cons.mp hmem with heq | hmem2
      · exact hc heq.symm
      · exact lt_not_mem_stripTagsAux rest false hmem2

theorem head_mem_of_containsSub {c : Char} {ns l : List Char}
    (h : containsSub (c :: ns) l = true) : c ∈ l := by
  induction l with
  | nil => simp [containsSub, List.isEmpty] at h
  | cons a rest ih =>
    simp only [containsSub, Bool.or_eq_true] at h
    rcases h with hpre | hrec
    · simp only [charsPrefixOf, Bool.and_eq_true, decide_eq_true_eq] at hpre
      rw [hpre.1]
      exact List.mem_cons_self a rest
    · exact List.mem_cons_of_mem a (ih hrec)

theorem containsSub_eq_false_of_not_mem {c : Char} {ns l : List Char} (h : c ∉ l) :
    containsSub (c :: ns) l = false := by
  cases hcs : containsSub (c :: ns) l
  · rfl
  · exact absurd (head_mem_of_containsSub hcs) h

/-! ## Structural lemmas about sanitize -/

mutual

theorem skeleton_sanitize_aux : ∀ v : JSValue, skeleton (sanitize v) = skeleton v
  | .str _ => rfl
  | .num _ => rfl
  | .bool _ => rfl
  | .null => rfl
  | .undef => rfl
  | .arr l => by
    simp only [sanitize, skeleton]
    rw [skeletonList_sanitizeList_aux l]
  | .obj kvs => by
    simp only [sanitize, skeleton]
    rw [skeletonObj_sanitizeObj_aux kvs]

theorem skeletonList_sanitizeList_aux :
    ∀ l : JSList, skeletonList (sanitizeList l) = skeletonList l
  | .nil => rfl
  | .cons v t => by
    simp only [sanitizeList, skeletonList]
    rw [skeleton_sanitize_aux v, skeletonList_sanitizeList_aux t]

theorem skeletonObj_sanitizeObj_aux :
    ∀ kvs : JSObj, skeletonObj (sanitizeObj kvs) = skeletonObj kvs
  | .nil => rfl
  | .cons k v t => by
    simp only [sanitizeObj, skeletonObj]
    rw [skeleton_sanitize_aux v, skeletonObj_sanitizeObj_aux t]

end

theorem jsLength_sanitizeList : ∀ l : JSList, jsLength (sanitizeList l) = jsLength l
  | .nil => rfl
  | .cons v t => by
    simp only [sanitizeList, jsLength]
    rw [jsLength_sanitizeList t]

theorem objKeys_sanitizeObj : ∀ kvs : JSObj, objKeys (sanitizeObj kvs) = objKeys kvs
  | .nil => rfl
  | .cons k v t => by
    simp only [sanitizeObj, objKeys]
    rw [objKeys_sanitizeObj t]

/-! ## Claim theorems about the sanitizer -/

/-- C5: For every finite acyclic JSON-like value, `sanitize` preserves the
structural skeleton: arrays keep their length and element order, objects keep
exactly their own enumerable key set, and no field is added or removed at any
depth. -/
theorem sanitize_preserves_structure :
    (∀ v : JSValue, skeleton (sanitize v) = skeleton v)
    ∧ (∀ l : JSList, jsLength (sanitizeList l) = jsLength l)
    ∧ (∀ kvs : JSObj, objKeys (sanitizeObj kvs) = objKeys kvs) :=
  ⟨skeleton_sanitize_aux, jsLength_sanitizeList, objKeys_sanitizeObj⟩

/-- C6: For every markup-free string, `sanitize` only removes leading and
trailing whitespace: the result is exactly the trimmed string. -/
theorem sanitize_no_markup_eq_trim (s : String) (h : hasMarkup s = false) :
    sanitize (JSValue.str s) = JSValue.str (vtrim s) :=
  sanitize_str_of_no_markup h

/-- Witness for C6 at the concrete markup-free string "  hello world  ". -/
theorem sanitize_no_markup_eq_trim_witness :
    sanitize (JSValue.str "  hello world  ") = JSValue.str (vtrim "  hello world  ") :=
  sanitize_no_markup_eq_trim "  hello world  " (by decide)

/-- C7: For every string containing a script tag, the sanitized string contains
no occurrence of the script-tag characters: the string branch of `sanitize`
strips executable markup. -/
theorem sanitize_strips_script (s : String) (h : containsSub scriptTag s.toList = true) :
    sanitize (JSValue.str s) = JSValue.str (sanitizeString s)
    ∧ containsSub scriptTag (sanitizeString s).toList = false := by
  refine ⟨rfl, ?_⟩
  simp only [scriptTag] at h ⊢
  have hlt : '<' ∈ s.toList := head_mem_of_containsSub h
  have hlt2 : '<' ∈ trimChars s.toList := mem_trimChars_of_not_ws hlt (by decide)
  have hm : hasMarkup (vtrim s) = true := by
    unfold hasMarkup vtrim
    rw [toList_mk]
    exact List.any_eq_true.mpr ⟨'<', hlt2, by simp⟩
  rw [sanitizeString, customEscapeStr_eq]
  unfold purifyString
  rw [hm]
  simp only [if_true, toList_mk]
  exact containsSub_eq_false_of_not_mem (lt_not_mem_stripTagsAux _ false)

/-- Witness for C7 at a concrete string carrying a script tag. -/
theorem sanitize_strips_script_witness :
    sanitize (JSValue.str "a<script>alert(1)</script>b")
      = JSValue.str (sanitizeString "a<script>alert(1)</script>b")
    ∧ containsSub scriptTag (sanitizeString "a<script>alert(1)</script>b").toList = false :=
  sanitize_strips_script "a<script>alert(1)</script>b" (by decide)

/-- C8: A well-formed URL with an explicit protocol scheme passes through
`sanitize` unchanged apart from trimming. -/
theorem sanitize_preserves_url (s : String) (h : isExplicitProtocolURL s = true) :
    sanitize (JSValue.str s) = JSValue.str (vtrim s) := by
  have hall : s.toList.all isURLChar = true := by
    unfold isExplicitProtocolURL at h
    simp only [Bool.and_eq_true] at h
    exact h.2
  have hnm : hasMarkup s = false := by
    cases hmk : hasMarkup s
    · rfl
    · obtain ⟨c, hcmem, hceq⟩ := List.any_eq_true.mp hmk
      have hc : c = '<' := by simpa using hceq
      subst hc
      have := List.all_eq_true.mp hall '<' hcmem
      simp [isURLChar] at this
  exact sanitize_str_of_no_markup hnm

/-- Witness for C8 at a concrete explicit-protocol URL. -/
theorem sanitize_preserves_url_witness :
    sanitize (JSValue.str "https://example.com/a?b=1")
      = JSValue.str (vtrim "https://example.com/a?b=1") :=
  sanitize_preserves_url "https://example.com/a?b=1" (by decide)

/-- C10: `customEscape` is the identity function: both branches of its URL
check return the value unchanged, so the explicit-protocol URL test has no
effect. -/
theorem customEscape_id : ∀ v : JSValue, customEscape v = v := by
  intro v
  cases v <;> simp [customEscape, customEscapeStr]

/-! ## Origin decision (corsOptions.origin, lines 43-54) -/

inductive CorsDecision where
  | Allowed
  | Blocked
deriving DecidableEq

/-- `corsOptions.origin` (lines 44-54): the `if (!origin)` test of line 46 is a
JavaScript falsiness test, so both an absent Origin header (undefined) and a
present empty-string value are allowed unconditionally; any other present
origin is allowed exactly when it is an element of the whitelist
(`whitelist.includes(origin)`, exact case-sensitive string comparison),
otherwise the callback reports an error (Blocked). -/
def decideOrigin (origin : Option String) (whitelist : List String) : CorsDecision :=
  match origin with
  | none => .Allowed
  | some o =>
    if o = "" then .Allowed
    else if o ∈ whitelist then .Allowed
    else .Blocked

/-- C4 counterexample: the empty string is a present origin that is allowed by
the falsy test of line 46 even though it is not an element of the whitelist, so
the claimed equivalence between Allowed and membership fails. -/
theorem decideOrigin_empty_cex :
    decideOrigin (some "") ["https://shop.example"] = .Allowed
    ∧ "" ∉ ["https://shop.example"] := by decide

/-- C4 (amended): the origin decision allows an absent origin unconditionally,
and — because line 46 tests JavaScript falsiness, not only absence — it also
allows a present empty-string origin unconditionally; every other present
origin is allowed exactly when it is a member of the whitelist by exact string
comparison, and blocked otherwise. -/
theorem decideOrigin_amended :
    (∀ W : List String, decideOrigin none W = .Allowed)
    ∧ (∀ W : List String, decideOrigin (some "") W = .Allowed)
    ∧ (∀ (o : String) (W : List String), o ≠ "" →
        (decideOrigin (some o) W = .Allowed ↔ o ∈ W))
    ∧ (∀ (o : String) (W : List String), o ≠ "" →
        (decideOrigin (some o) W = .Blocked ↔ o ∉ W)) := by
  refine ⟨fun W => rfl, fun W => rfl, fun o W h => ?_, fun o W h => ?_⟩ <;>
    rw [decideOrigin] <;> rw [if_neg h] <;>
    by_cases hm : o ∈ W <;> simp [hm]

/-- Witness for C4 (amended) at a concrete non-empty, non-whitelisted
origin. -/
theorem decideOrigin_amended_witness :
    decideOrigin (some "https://evil.example") ["https://shop.example"] = .Blocked :=
  (decideOrigin_amended.2.2.2 "https://evil.example" ["https://shop.example"]
    (by decide)).mpr (by decide)

/-! ## Startup whitelist parsing (lines 36-40) -/

/-- JavaScript `String.prototype.split(',')` (line 40): splits at every comma;
on the empty string it yields the one-element list of the empty string. -/
def splitCommaAux : List Char → List Char → List (List Char)
  | [], acc => [acc.reverse]
  | c :: rest, acc =>
    if c = ',' then acc.reverse :: splitCommaAux rest []
    else splitCommaAux rest (c :: acc)

def splitComma (s : String) : List String :=
  (splitCommaAux s.toList []).map String.mk

/-- Lines 36-40: if `process.env.CORS_WHITELIST_URLS` is undefined — or the
empty string, which is equally falsy in the `!process.env...` test — module
evaluation throws; otherwise the whitelist is the comma-split list with each
entry trimmed. -/
def initWhitelist : Option String → Except String (List String)
  | none => .error "CORS_WHITELIST_URLS environment variable is not set"
  | some s =>
    if s = "" then .error "CORS_WHITELIST_URLS environment variable is not set"
    else .ok ((splitComma s).map vtrim)

/-- Modelled from the spec: the process opens its port (`app.listen`, line 159)
only if module evaluation — including the whitelist check, which precedes it —
completed without throwing. -/
def startupOpensPort (cfg : Option String) : Bool :=
  match initWhitelist cfg with
  | .ok _ => true
  | .error _ => false

theorem splitCommaAux_ne_nil : ∀ (l acc : List Char), splitCommaAux l acc ≠ []
  | [], acc => by simp [splitCommaAux]
  | c :: rest, acc => by
    simp only [splitCommaAux]
    by_cases hc : c = ','
    · rw [if_pos hc]; simp
    · rw [if_neg hc]; exact splitCommaAux_ne_nil rest (c :: acc)

/-- C9 counterexample: the configuration value is present as the empty string,
yet startup fails fatally instead of producing the comma-split whitelist the
claim promises for every present value. -/
theorem whitelist_present_empty_cex :
    initWhitelist (some "") = .error "CORS_WHITELIST_URLS environment variable is not set"
    ∧ initWhitelist (some "") ≠ .ok ((splitComma "").map vtrim)
    ∧ startupOpensPort (some "") = false := by
  refine ⟨rfl, ?_, rfl⟩
  intro hcontr
  exact Except.noConfusion hcontr

/-- C9 (amended): an absent — or present-but-empty — configuration value fails
startup fatally before the port is opened; a present non-empty value yields the
comma-split list of entries, each trimmed, and that whitelist is non-empty. -/
theorem whitelist_init (s : String) (h : s ≠ "") :
    initWhitelist none = .error "CORS_WHITELIST_URLS environment variable is not set"
    ∧ startupOpensPort none = false
    ∧ initWhitelist (some s) = .ok ((splitComma s).map vtrim)
    ∧ (splitComma s).map vtrim ≠ [] := by
  refine ⟨rfl, rfl, ?_, ?_⟩
  · simp only [initWhitelist]
    rw [if_neg h]
  · intro hnil
    apply splitCommaAux_ne_nil s.toList []
    exact List.map_eq_nil_iff.mp (List.map_eq_nil_iff.mp hnil)

/-- Witness for C9 (amended) at a concrete two-entry configuration string. -/
theorem whitelist_init_witness :
    initWhitelist none = .error "CORS_WHITELIST_URLS environment variable is not set"
    ∧ startupOpensPort none = false
    ∧ initWhitelist (some "https://shop.example, https://a.example")
        = .ok ((splitComma "https://shop.example, https://a.example").map vtrim)
    ∧ (splitComma "https://shop.example, https://a.example").map vtrim ≠ [] :=
  whitelist_init "https://shop.example, https://a.example" (by decide)

/-! ## The request pipeline (registration order of part_000)

Requests and responses are plain data.  `versionOk` stands for the verdict of
the external `appVersionValidator` collaborator (its file is not under src/;
per the spec it accepts or rejects a request before routing).  Library
middlewares are pass-through, as in the spec's stage machine. -/

inductive Method where
  | GET
  | POST
  | PUT
  | DELETE
  | OPTIONS
  | PATCH
  | HEAD
deriving DecidableEq

structure Request where
  method : Method
  origin : Option String
  path : String
  versionOk : Bool
  body : JSValue
deriving DecidableEq

inductive RespBody where
  | empty
  | text (s : String)
  | jsonError (error : String) (origin : String)
deriving DecidableEq

structure Response where
  status : Nat
  headers : List (String × String)
  body : RespBody
deriving DecidableEq

/-- Where control ends up: a terminal response produced by the pipeline, a
hand-off to the external router (`dispatched`), or a fall-through to the
framework's default not-found handling for non-GET unmatched paths. -/
inductive Outcome where
  | respond (r : Response)
  | dispatched (r : Request)
  | unhandled (r : Request)
deriving DecidableEq

inductive Stage where
  | ParseBody
  | SetCorsHeaders
  | IfPreflight
  | OriginGuard
  | VersionGate
  | Dispatch
  | SanitizeBody
  | MongoPatternStrip
  | Fallback
deriving DecidableEq

/-- The response headers set unconditionally by the middleware of lines 76-80:
echo the declared origin — `req.header('Origin') || '*'` on line 77 falls back
to `*` both when the header is absent and when it is the falsy empty string —
allow credentials, and the fixed method and header lists. -/
def corsHeaders (origin : Option String) : List (String × String) :=
  [("Access-Control-Allow-Origin",
    match origin with
    | some o => if o = "" then "*" else o
    | none => "*"),
   ("Access-Control-Allow-Credentials", "true"),
   ("Access-Control-Allow-Methods", "GET,HEAD,PUT,PATCH,POST,DELETE,OPTIONS"),
   ("Access-Control-Allow-Headers", "Origin, X-Requested-With, Content-Type, Accept, Authorization")]

def corsErrorMsg : String := "CORS policy does not allow access from this origin."

/-- Line 102 mounts the version validator and router at the `/clientApis`
path prefix. -/
def clientApisMount (p : String) : Bool := charsPrefixOf "/clientApis".toList p.toList

/-- The tail of the pipeline after the preflight and origin checks: the
`/clientApis` mount (line 102, version gate then router dispatch), else the
body-sanitize middleware (lines 137-140), `express-mongo-sanitize` (line 142,
external pattern strip), and the 404 fallback (lines 150-152, registered for
GET). -/
def afterGuard (req : Request) (t : List Stage) : List Stage × Outcome :=
  if clientApisMount req.path then
    if req.versionOk then
      (t ++ [.VersionGate, .Dispatch], .dispatched req)
    else
      (t ++ [.VersionGate],
       .respond { status := 400, headers := corsHeaders req.origin, body := .empty })
  else
    let req2 : Request := { req with body := sanitize req.body }
    if req.method = Method.GET then
      (t ++ [.SanitizeBody, .MongoPatternStrip, .Fallback],
       .respond { status := 404, headers := corsHeaders req.origin, body := .text "API NOT FOUND" })
    else
      (t ++ [.SanitizeBody, .MongoPatternStrip, .Fallback], .unhandled req2)

/-- The middleware chain in registration order, with the trace of the stages
that ran.  Lines 76-86 set the CORS headers and short-circuit OPTIONS
preflights with 204; lines 89-99 reject with 403 and the JSON error body when
`origin && !whitelist.includes(origin)` — a truthiness test, so an absent or
empty-string origin is never blocked; then control reaches the mount of
line 102. -/
def runPipelineTrace (wl : List String) (req : Request) : List Stage × Outcome :=
  let t0 : List Stage := [.ParseBody, .SetCorsHeaders, .IfPreflight]
  if req.method = Method.OPTIONS then
    (t0, .respond { status := 204, headers := corsHeaders req.origin, body := .empty })
  else
    match req.origin with
    | some o =>
      if o = "" then afterGuard req (t0 ++ [.OriginGuard])
      else if o ∈ wl then afterGuard req (t0 ++ [.OriginGuard])
      else
        (t0 ++ [.OriginGuard],
         .respond { status := 403, headers := corsHeaders req.origin,
                    body := .jsonError corsErrorMsg o })
    | none => afterGuard req (t0 ++ [.OriginGuard])

def runPipeline (wl : List String) (req : Request) : Outcome :=
  (runPipelineTrace wl req).2

/-- The registration order of all stages in the bootstrap file. -/
def fullStageOrder : List Stage :=
  [.ParseBody, .SetCorsHeaders, .IfPreflight, .OriginGuard, .VersionGate, .Dispatch,
   .SanitizeBody, .MongoPatternStrip, .Fallback]

/-! ## Claim theorems about the pipeline -/

/-- An OPTIONS request from a non-whitelisted origin, as in the spec's blocked
scenario but with a preflight method. -/
def evilPreflight : Request :=
  { method := .OPTIONS, origin := some "https://evil.example",
    path := "/clientApis/v1/search", versionOk := true, body := .null }

/-- A non-OPTIONS GET request whose Origin header is present but empty: the
empty string is JS-falsy, so the truthiness guard of line 91 lets it pass. -/
def emptyOriginReq : Request :=
  { method := .GET, origin := some "", path := "/", versionOk := true, body := .null }

/-- C1 counterexample: two requests whose Origin header is present and not
whitelisted, yet whose response is not 403 — an OPTIONS request is answered 204
by the preflight short-circuit of lines 82-84 before the origin-blocking
middleware of lines 89-99 ever runs, and a present empty-string origin is
JS-falsy, passes the guard of line 91, and falls through to the 404
fallback. -/
theorem blocked_origin_options_cex :
    evilPreflight.origin = some "https://evil.example"
    ∧ "https://evil.example" ∉ ["https://shop.example"]
    ∧ runPipeline ["https://shop.example"] evilPreflight
        = .respond { status := 204, headers := corsHeaders (some "https://evil.example"),
                     body := .empty }
    ∧ emptyOriginReq.origin = some ""
    ∧ "" ∉ ["https://shop.example"]
    ∧ runPipeline ["https://shop.example"] emptyOriginReq
        = .respond { status := 404, headers := corsHeaders (some ""),
                     body := .text "API NOT FOUND" }
    ∧ (204 : Nat) ≠ 403
    ∧ (404 : Nat) ≠ 403 := by decide

/-- C1 (amended): every request with a method other than OPTIONS whose Origin
header is present, non-empty and not an element of the whitelist is rejected
with status 403 and the JSON body naming the error message and the rejected
origin. -/
theorem blocked_origin_403 (wl : List String) (req : Request) (o : String)
    (hm : req.method ≠ Method.OPTIONS) (ho : req.origin = some o)
    (hne : o ≠ "") (hw : o ∉ wl) :
    runPipeline wl req
      = .respond { status := 403, headers := corsHeaders req.origin,
                   body := .jsonError corsErrorMsg o } := by
  unfold runPipeline runPipelineTrace
  simp only [ho, if_neg hm, if_neg hne, if_neg hw]

/-- Witness for C1 (amended) at the spec's blocked-origin scenario with a POST
request. -/
theorem blocked_origin_403_witness :
    runPipeline ["https://shop.example"]
        { method := .POST, origin := some "https://evil.example",
          path := "/clientApis/v1/search", versionOk := true, body := .null }
      = .respond { status := 403, headers := corsHeaders (some "https://evil.example"),
                   body := .jsonError corsErrorMsg "https://evil.example" } :=
  blocked_origin_403 ["https://shop.example"] _ "https://evil.example"
    (by decide) rfl (by decide) (by decide)

/-- A well-formed request that reaches the router: whitelisted origin,
`/clientApis` path, passing version check, with a script tag in its body. -/
def dispatchedReq : Request :=
  { method := .POST, origin := some "https://shop.example",
    path := "/clientApis/v1/search", versionOk := true,
    body := .str "<script>x</script>" }

/-- C2 counterexample: a request that reaches the route dispatcher is forwarded
with its body unsanitized — the sanitize middleware (lines 137-140) is
registered after the `/clientApis` mount (line 102) — and the executed stage
order places SetCorsHeaders and IfPreflight before OriginGuard, contrary to the
claimed order. -/
theorem dispatch_unsanitized_cex :
    runPipeline ["https://shop.example"] dispatchedReq = .dispatched dispatchedReq
    ∧ dispatchedReq.body = .str "<script>x</script>"
    ∧ sanitize dispatchedReq.body = .str "x"
    ∧ sanitize dispatchedReq.body ≠ dispatchedReq.body
    ∧ (runPipelineTrace ["https://shop.example"] dispatchedReq).1
        = [.ParseBody, .SetCorsHeaders, .IfPreflight, .OriginGuard, .VersionGate, .Dispatch]
    := by decide

/-- C2 (amended): for every request the executed stages form a subsequence of
the registration order ParseBody, SetCorsHeaders, IfPreflight, OriginGuard,
VersionGate, Dispatch, SanitizeBody, MongoPatternStrip, Fallback — failure at a
guard stage is terminal — and every request that reaches the route dispatcher
is handed over with its body exactly as parsed: SanitizeBody has NOT been
applied to it and does not appear in its trace. -/
theorem afterGuard_trace_ok (req : Request) :
    List.Sublist
      (afterGuard req ([Stage.ParseBody, Stage.SetCorsHeaders, Stage.IfPreflight]
        ++ [Stage.OriginGuard])).1 fullStageOrder
    ∧ (∀ r : Request,
        (afterGuard req ([Stage.ParseBody, Stage.SetCorsHeaders, Stage.IfPreflight]
          ++ [Stage.OriginGuard])).2 = .dispatched r →
        r.body = req.body
        ∧ Stage.SanitizeBody ∉
            (afterGuard req ([Stage.ParseBody, Stage.SetCorsHeaders, Stage.IfPreflight]
              ++ [Stage.OriginGuard])).1) := by
  simp only [afterGuard]
  split
  · split
    · refine ⟨of_decide_eq_true rfl, ?_⟩
      intro r h
      injection h with h2
      subst h2
      exact ⟨rfl, of_decide_eq_true rfl⟩
    · exact ⟨of_decide_eq_true rfl, by intro r h; cases h⟩
  · split
    · exact ⟨of_decide_eq_true rfl, by intro r h; cases h⟩
    · exact ⟨of_decide_eq_true rfl, by intro r h; cases h⟩

theorem pipeline_stage_order (wl : List String) (req : Request) :
    List.Sublist (runPipelineTrace wl req).1 fullStageOrder
    ∧ (∀ r : Request, (runPipelineTrace wl req).2 = .dispatched r →
        r.body = req.body ∧ Stage.SanitizeBody ∉ (runPipelineTrace wl req).1) := by
  simp only [runPipelineTrace]
  split
  · exact ⟨of_decide_eq_true rfl, by intro r h; cases h⟩
  · split
    · split
      · exact afterGuard_trace_ok req
      · split
        · exact afterGuard_trace_ok req
        · exact ⟨of_decide_eq_true rfl, by intro r h; cases h⟩
    · exact afterGuard_trace_ok req

/-- Witness for C2 (amended) at a concrete dispatched request. -/
theorem pipeline_stage_order_witness :
    dispatchedReq.body = dispatchedReq.body
    ∧ Stage.SanitizeBody ∉ (runPipelineTrace ["https://shop.example"] dispatchedReq).1 :=
  (pipeline_stage_order ["https://shop.example"] dispatchedReq).2 dispatchedReq (by decide)

/-- C3: every OPTIONS request, whatever its origin, is answered immediately
with status 204, empty body and the CORS headers (including the fixed
Access-Control-Allow-Methods list), and no downstream stage runs. -/
theorem preflight_short_circuit (wl : List String) (req : Request)
    (h : req.method = Method.OPTIONS) :
    runPipeline wl req
      = .respond { status := 204, headers := corsHeaders req.origin, body := .empty }
    ∧ ("Access-Control-Allow-Methods", "GET,HEAD,PUT,PATCH,POST,DELETE,OPTIONS")
        ∈ corsHeaders req.origin
    ∧ (runPipelineTrace wl req).1 = [.ParseBody, .SetCorsHeaders, .IfPreflight] := by
  unfold runPipeline runPipelineTrace
  rw [if_pos h]
  exact ⟨rfl, by simp [corsHeaders], rfl⟩

/-- Witness for C3 at a concrete OPTIONS request from a non-whitelisted
origin. -/
theorem preflight_short_circuit_witness :
    runPipeline ["https://shop.example"] evilPreflight
      = .respond { status := 204, headers := corsHeaders evilPreflight.origin, body := .empty }
    ∧ ("Access-Control-Allow-Methods", "GET,HEAD,PUT,PATCH,POST,DELETE,OPTIONS")
        ∈ corsHeaders evilPreflight.origin
    ∧ (runPipelineTrace ["https://shop.example"] evilPreflight).1
        = [.ParseBody, .SetCorsHeaders, .IfPreflight] :=
  preflight_short_circuit ["https://shop.example"] evilPreflight rfl

end Biap
